import Mathlib

/-!
Shallow embedding of the tray-popover controller in `src/src-tauri/src/lib.rs`
(the `run` function: its `on_tray_icon_event` closure, its `on_window_event`
closure, and its `setup` closure), together with proofs of the behavioural
properties stated in the design document.

Numeric conventions: the Rust code computes positions in `f64` and converts to
machine integers.  All values involved are small dyadic rationals, so the
arithmetic is modelled exactly over `ℚ`.  Rust's `f64::round` rounds half away
from zero, and an `as i32` / `as u32` cast of a float saturates at the type's
bounds; both are modelled explicitly below.
-/

namespace Unscramm

/-- Rust `f64::round`: nearest integer, ties rounded away from zero. -/
def roundHalfAway (q : ℚ) : ℤ :=
  if 0 ≤ q then ⌊q + 1/2⌋ else ⌈q - 1/2⌉

/-- Saturating cast of an integer to the `i32` range (Rust `as i32` on a float
value that has already been rounded). -/
def i32cast (z : ℤ) : ℤ := max (-(2 ^ 31)) (min (2 ^ 31 - 1) z)

/-- Saturating cast of an integer to the `u32` range (Rust `as u32` on a float
value that has already been rounded). -/
def u32cast (z : ℤ) : ℤ := max 0 (min (2 ^ 32 - 1) z)

/-- The tray icon's bounding rectangle delivered with a tray event, in logical
(device-independent) coordinates: `rect.position` and `rect.size` in the Rust
code. -/
structure TrayRect where
  px : ℚ
  py : ℚ
  sw : ℚ
  sh : ℚ
deriving DecidableEq

/-- Mirror of `tauri::tray::MouseButton`. -/
inductive MouseButton where
  | Left
  | Right
  | Middle
deriving DecidableEq

/-- Mirror of `tauri::tray::MouseButtonState`. -/
inductive MouseButtonState where
  | Up
  | Down
deriving DecidableEq

/-- Mirror of `tauri::tray::TrayIconEvent`, restricted to the data the handler
inspects: the pattern in `lib.rs` matches `Click { button, button_state, rect,
.. }` and ignores every other variant. -/
inductive TrayIconEvent where
  | Click (button : MouseButton) (buttonState : MouseButtonState) (rect : TrayRect)
  | DoubleClick (button : MouseButton) (rect : TrayRect)
  | Enter (rect : TrayRect)
  | Move (rect : TrayRect)
  | Leave (rect : TrayRect)
deriving DecidableEq

/-- Mirror of `tauri::WindowEvent`, restricted to the shape the handler
inspects: the closure in `lib.rs` matches `WindowEvent::Focused(false)` and
ignores everything else. -/
inductive WindowEvent where
  | Resized
  | Moved
  | CloseRequested
  | Destroyed
  | Focused (focused : Bool)
  | ThemeChanged
deriving DecidableEq

/-- A window-mutating command issued by the controller.  Each constructor is
one method call on the `WebviewWindow` handle in `lib.rs`. -/
inductive Cmd where
  | hide
  | showWin
  | setFocus
  | setPosition (x : ℤ) (y : ℤ)
  | setVisibleOnAllWorkspaces (b : Bool)
deriving DecidableEq

/-- The results the window handle returns to the handler during one
invocation: whether `app.get_webview_window("main")` resolves, what
`window.is_visible()` returns (`none` models `Err`), and what
`window.scale_factor()` returns (`none` models `Err`). -/
structure WindowEnv where
  resolvable : Bool
  isVisibleResult : Option Bool
  scaleResult : Option ℚ
deriving DecidableEq

/-- Constant `window_width` in `lib.rs` (line 30). -/
def windowWidth : ℚ := 400

/-- Constant `gap` in `lib.rs` (line 31). -/
def gap : ℚ := 8

/-- The scale-converted physical rectangle: `rect.position.to_physical(scale)`
as `PhysicalPosition<i32>` and `rect.size.to_physical(scale)` as
`PhysicalSize<u32>` (lines 34-35).  `to_physical` multiplies each logical
component by the scale factor and converts to the integer pixel type with
`f64::round` followed by the saturating cast. -/
structure PhysRect where
  posX : ℤ
  posY : ℤ
  sizeW : ℤ
  sizeH : ℤ
deriving DecidableEq

/-- Lines 34-35 of `lib.rs`: logical-to-physical conversion of the tray rect. -/
def toPhysical (rect : TrayRect) (scale : ℚ) : PhysRect :=
  { posX := i32cast (roundHalfAway (rect.px * scale))
    posY := i32cast (roundHalfAway (rect.py * scale))
    sizeW := u32cast (roundHalfAway (rect.sw * scale))
    sizeH := u32cast (roundHalfAway (rect.sh * scale)) }

/-- Line 37 of `lib.rs`: the unrounded horizontal target,
`pos.x + size.width/2 - window_width/2` over `f64`. -/
def targetXQ (rect : TrayRect) (scale : ℚ) : ℚ :=
  ((toPhysical rect scale).posX : ℚ) + ((toPhysical rect scale).sizeW : ℚ) / 2
    - windowWidth / 2

/-- Line 38 of `lib.rs`: the unrounded vertical target,
`pos.y + size.height + gap` over `f64`. -/
def targetYQ (rect : TrayRect) (scale : ℚ) : ℚ :=
  ((toPhysical rect scale).posY : ℚ) + ((toPhysical rect scale).sizeH : ℚ) + gap

/-- Lines 40-43 of `lib.rs`: the physical position passed to `set_position`,
`(target_x.round() as i32, target_y.round() as i32)`. -/
def computeTarget (rect : TrayRect) (scale : ℚ) : ℤ × ℤ :=
  (i32cast (roundHalfAway (targetXQ rect scale)),
   i32cast (roundHalfAway (targetYQ rect scale)))

/-- The `on_tray_icon_event` closure (lines 16-59 of `lib.rs`), as the list of
window commands it issues.  Only `Click { button: Left, button_state: Up, .. }`
passes the pattern; then the window must resolve; then
`is_visible().unwrap_or(false)` selects hide versus the
position/show/focus sequence, with `scale_factor().unwrap_or(1.0)` supplying
the scale.  The `#[cfg(target_os = "macos")]` and `#[cfg(not(...))]` branches
issue the same `show(); set_focus();` pair, so the model is
platform-independent. -/
def handleTrayEvent (env : WindowEnv) (ev : TrayIconEvent) : List Cmd :=
  match ev with
  | .Click .Left .Up rect =>
    if env.resolvable then
      if env.isVisibleResult.getD false then
        [.hide]
      else
        [.setPosition (computeTarget rect (env.scaleResult.getD 1)).1
           (computeTarget rect (env.scaleResult.getD 1)).2,
         .showWin, .setFocus]
    else []
  | _ => []

/-- The `on_window_event` closure (lines 88-92 of `lib.rs`): hide on
`Focused(false)`, do nothing otherwise. -/
def handleWindowEvent (ev : WindowEvent) : List Cmd :=
  match ev with
  | .Focused false => [.hide]
  | _ => []

/-- The controller's visibility state. -/
inductive Visibility where
  | Hidden
  | Visible
deriving DecidableEq

/-- Effect of one successfully executed window command on visibility. -/
def applyCmd (v : Visibility) (c : Cmd) : Visibility :=
  match c with
  | .hide => .Hidden
  | .showWin => .Visible
  | _ => v

/-- Returns `true` exactly on `Visible`. -/
def isVisibleOf (v : Visibility) : Bool :=
  match v with
  | .Hidden => false
  | .Visible => true

/-- A window environment whose visibility query accurately reports the current
state (window resolved, `is_visible()` returns `Ok` of the true state). -/
def accurateEnv (v : Visibility) (s : Option ℚ) : WindowEnv :=
  { resolvable := true, isVisibleResult := some (isVisibleOf v), scaleResult := s }

/-- One `Left`/`Up` tray click against an accurate environment, with the
event's rect and the invocation's `scale_factor()` result as data, executed on
the visibility state. -/
def trayToggleStep (v : Visibility) (p : TrayRect × Option ℚ) : Visibility :=
  (handleTrayEvent (accurateEnv v p.2) (.Click .Left .Up p.1)).foldl applyCmd v

/-- Flip of the visibility state. -/
def toggle : Visibility → Visibility
  | .Hidden => .Visible
  | .Visible => .Hidden

/-- An event dispatched to the controller after setup: a tray event together
with the window-handle results of that invocation, or a window event. -/
inductive SysEvent where
  | tray (env : WindowEnv) (ev : TrayIconEvent)
  | win (ev : WindowEvent)

/-- Commands issued for one dispatched event. -/
def eventCmds : SysEvent → List Cmd
  | .tray env ev => handleTrayEvent env ev
  | .win ev => handleWindowEvent ev

/-- Window commands issued by the `setup` closure (lines 62-98 of `lib.rs`),
in order: `set_visible_on_all_workspaces(true)` (line 81) then `hide()`
(line 95).  Registering the focus handler (line 88) issues no command, and the
activation-policy and logging calls do not touch the window. -/
def setupWindowCmds : List Cmd := [.setVisibleOnAllWorkspaces true, .hide]

/-- The whole run: `app.get_webview_window("main").unwrap()` in `setup`
(line 77) panics when the window does not resolve, aborting startup (`none`);
otherwise the setup commands are issued and only then does the event loop
dispatch events to the two handlers. -/
def systemTrace (resolvable : Bool) (events : List SysEvent) : Option (List Cmd) :=
  if resolvable then some (setupWindowCmds ++ events.flatMap eventCmds) else none

/-- The spec's position formula, stated on a physical rectangle:
`target_x = position.x + size.width/2 - window_width/2`,
`target_y = position.y + size.height + gap`. -/
def specTargetOnPhys (p : PhysRect) : ℚ × ℚ :=
  ((p.posX : ℚ) + (p.sizeW : ℚ) / 2 - windowWidth / 2,
   (p.posY : ℚ) + (p.sizeH : ℚ) + gap)

/-! ### Helper lemmas -/

lemma roundHalfAway_of_nonneg {q : ℚ} {n : ℤ} (hq : 0 ≤ q)
    (h1 : (n : ℚ) ≤ q + 1/2) (h2 : q + 1/2 < (n : ℚ) + 1) :
    roundHalfAway q = n := by
  rw [roundHalfAway, if_pos hq]
  exact Int.floor_eq_iff.mpr ⟨h1, h2⟩

lemma roundHalfAway_of_neg {q : ℚ} {n : ℤ} (hq : ¬ 0 ≤ q)
    (h1 : (n : ℚ) - 1 < q - 1/2) (h2 : q - 1/2 ≤ (n : ℚ)) :
    roundHalfAway q = n := by
  rw [roundHalfAway, if_neg hq]
  exact Int.ceil_eq_iff.mpr ⟨h1, h2⟩

lemma roundHalfAway_intCast (n : ℤ) : roundHalfAway (n : ℚ) = n := by
  by_cases hq : 0 ≤ (n : ℚ)
  · exact roundHalfAway_of_nonneg hq (by linarith) (by linarith)
  · exact roundHalfAway_of_neg hq (by linarith) (by linarith)

lemma i32cast_of_range {z : ℤ} (h1 : -(2 ^ 31) ≤ z) (h2 : z ≤ 2 ^ 31 - 1) :
    i32cast z = z := by
  rw [i32cast]
  omega

lemma u32cast_of_range {z : ℤ} (h1 : 0 ≤ z) (h2 : z ≤ 2 ^ 32 - 1) :
    u32cast z = z := by
  rw [u32cast]
  omega

lemma abs_roundHalfAway_sub_le (q : ℚ) : |(roundHalfAway q : ℚ) - q| ≤ 1/2 := by
  rw [roundHalfAway]
  split
  · have h1 := Int.floor_le (q + 1/2)
    have h2 := Int.lt_floor_add_one (q + 1/2)
    rw [abs_le]
    constructor <;> linarith
  · have h1 := Int.le_ceil (q - 1/2)
    have h2 := Int.ceil_lt_add_one (q - 1/2)
    rw [abs_le]
    constructor <;> linarith

lemma roundHalfAway_tie_away (q : ℚ)
    (h : |(roundHalfAway q : ℚ) - q| = 1/2) : |q| ≤ |(roundHalfAway q : ℚ)| := by
  by_cases hq : 0 ≤ q
  · rw [roundHalfAway, if_pos hq] at h ⊢
    have h2 := Int.lt_floor_add_one (q + 1/2)
    have htie : (⌊q + 1/2⌋ : ℚ) - q = 1/2 := by
      rcases (abs_eq (by norm_num : (0:ℚ) ≤ 1/2)).mp h with h' | h'
      · exact h'
      · exfalso; linarith
    rw [abs_of_nonneg hq, abs_of_nonneg (by linarith : (0:ℚ) ≤ (⌊q + 1/2⌋ : ℚ))]
    linarith
  · rw [roundHalfAway, if_neg hq] at h ⊢
    push_neg at hq
    have h2 := Int.ceil_lt_add_one (q - 1/2)
    have htie : (⌈q - 1/2⌉ : ℚ) - q = -(1/2) := by
      rcases (abs_eq (by norm_num : (0:ℚ) ≤ 1/2)).mp h with h' | h'
      · exfalso; linarith
      · exact h'
    rw [abs_of_neg hq, abs_of_neg (by linarith : (⌈q - 1/2⌉ : ℚ) < 0)]
    linarith

lemma trayToggleStep_eq (v : Visibility) (p : TrayRect × Option ℚ) :
    trayToggleStep v p = toggle v := by
  cases v <;>
    simp [trayToggleStep, handleTrayEvent, accurateEnv, isVisibleOf, applyCmd,
      toggle]

lemma toggle_toggle (v : Visibility) : toggle (toggle v) = v := by
  cases v <;> rfl

lemma foldl_trayToggle (l : List (TrayRect × Option ℚ)) :
    ∀ v : Visibility,
      l.foldl trayToggleStep v = if l.length % 2 = 0 then v else toggle v := by
  induction l with
  | nil => intro v; simp
  | cons p t ih =>
    intro v
    rw [List.foldl_cons, trayToggleStep_eq, ih]
    by_cases h : t.length % 2 = 0
    · have h2 : (t.length + 1) % 2 = 1 := by omega
      simp [h, List.length_cons, h2]
    · have h2 : (t.length + 1) % 2 = 0 := by omega
      simp [h, List.length_cons, h2, toggle_toggle]

lemma specTargetOnPhys_fst (rect : TrayRect) (scale : ℚ) :
    (specTargetOnPhys (toPhysical rect scale)).1 = targetXQ rect scale := rfl

lemma specTargetOnPhys_snd (rect : TrayRect) (scale : ℚ) :
    (specTargetOnPhys (toPhysical rect scale)).2 = targetYQ rect scale := rfl

lemma toPhysical_case_a : toPhysical ⟨100, 50, 20, 20⟩ 2 = ⟨200, 100, 40, 40⟩ := by
  have r1 : roundHalfAway (200 : ℚ) = 200 :=
    roundHalfAway_of_nonneg (by norm_num) (by norm_num) (by norm_num)
  have r2 : roundHalfAway (100 : ℚ) = 100 :=
    roundHalfAway_of_nonneg (by norm_num) (by norm_num) (by norm_num)
  have r3 : roundHalfAway (40 : ℚ) = 40 :=
    roundHalfAway_of_nonneg (by norm_num) (by norm_num) (by norm_num)
  norm_num [toPhysical, r1, r2, r3, i32cast, u32cast]

lemma targetXQ_case_a : targetXQ ⟨100, 50, 20, 20⟩ 2 = 20 := by
  rw [targetXQ, toPhysical_case_a]
  norm_num [windowWidth]

lemma targetYQ_case_a : targetYQ ⟨100, 50, 20, 20⟩ 2 = 148 := by
  rw [targetYQ, toPhysical_case_a]
  norm_num [gap]

lemma rha_targetX_case_a : roundHalfAway (targetXQ ⟨100, 50, 20, 20⟩ 2) = 20 := by
  rw [targetXQ_case_a]
  exact roundHalfAway_of_nonneg (by norm_num) (by norm_num) (by norm_num)

lemma rha_targetY_case_a : roundHalfAway (targetYQ ⟨100, 50, 20, 20⟩ 2) = 148 := by
  rw [targetYQ_case_a]
  exact roundHalfAway_of_nonneg (by norm_num) (by norm_num) (by norm_num)

lemma computeTarget_case_a : computeTarget ⟨100, 50, 20, 20⟩ 2 = (20, 148) := by
  rw [computeTarget, rha_targetX_case_a, rha_targetY_case_a,
    i32cast_of_range (by omega) (by omega), i32cast_of_range (by omega) (by omega)]

lemma toPhysical_case_b : toPhysical ⟨10, 10, 30, 30⟩ (3/2) = ⟨15, 15, 45, 45⟩ := by
  have r1 : roundHalfAway (15 : ℚ) = 15 :=
    roundHalfAway_of_nonneg (by norm_num) (by norm_num) (by norm_num)
  have r2 : roundHalfAway (45 : ℚ) = 45 :=
    roundHalfAway_of_nonneg (by norm_num) (by norm_num) (by norm_num)
  norm_num [toPhysical, r1, r2, i32cast, u32cast]

lemma targetXQ_case_b : targetXQ ⟨10, 10, 30, 30⟩ (3/2) = -325/2 := by
  rw [targetXQ, toPhysical_case_b]
  norm_num [windowWidth]

lemma targetYQ_case_b : targetYQ ⟨10, 10, 30, 30⟩ (3/2) = 68 := by
  rw [targetYQ, toPhysical_case_b]
  norm_num [gap]

lemma rha_targetX_case_b : roundHalfAway (targetXQ ⟨10, 10, 30, 30⟩ (3/2)) = -163 := by
  rw [targetXQ_case_b]
  exact roundHalfAway_of_neg (by norm_num) (by norm_num) (by norm_num)

lemma rha_targetY_case_b : roundHalfAway (targetYQ ⟨10, 10, 30, 30⟩ (3/2)) = 68 := by
  rw [targetYQ_case_b]
  exact roundHalfAway_of_nonneg (by norm_num) (by norm_num) (by norm_num)

lemma computeTarget_case_b : computeTarget ⟨10, 10, 30, 30⟩ (3/2) = (-163, 68) := by
  rw [computeTarget, rha_targetX_case_b, rha_targetY_case_b,
    i32cast_of_range (by omega) (by omega), i32cast_of_range (by omega) (by omega)]

lemma rha_five_halves : roundHalfAway (5/2 : ℚ) = 3 :=
  roundHalfAway_of_nonneg (by norm_num) (by norm_num) (by norm_num)

/-! ### Claim theorems -/

/-- C1: starting from `Hidden`, every sequence of `Left`/`Up` tray clicks with
no intervening focus-lost event makes visibility alternate strictly
`Hidden, Visible, Hidden, ...`; each such click hides the window when the
visibility query reports visible and otherwise positions, shows, and focuses
it. -/
theorem C1_toggle_alternation :
    (∀ l : List (TrayRect × Option ℚ),
        l.foldl trayToggleStep .Hidden =
          if l.length % 2 = 0 then Visibility.Hidden else Visibility.Visible)
    ∧ (∀ (v : Visibility) (s : Option ℚ) (rect : TrayRect),
        handleTrayEvent (accurateEnv v s) (.Click .Left .Up rect) =
          if isVisibleOf v then [Cmd.hide]
          else
            [Cmd.setPosition (computeTarget rect (s.getD 1)).1
               (computeTarget rect (s.getD 1)).2,
             Cmd.showWin, Cmd.setFocus]) := by
  constructor
  · intro l
    rw [foldl_trayToggle l .Hidden]
    by_cases h : l.length % 2 = 0 <;> simp [h, toggle]
  · intro v s rect
    cases v <;> simp [handleTrayEvent, accurateEnv, isVisibleOf]

/-- C2: a `focused = false` event always issues exactly `hide`, so the
resulting state is `Hidden` from every prior state and a repeated
`focused = false` event keeps it `Hidden`; a `focused = true` event issues no
command. -/
theorem C2_focus_events :
    handleWindowEvent (.Focused false) = [Cmd.hide]
    ∧ (∀ v : Visibility,
        (handleWindowEvent (.Focused false)).foldl applyCmd v = .Hidden)
    ∧ (handleWindowEvent (.Focused false)).foldl applyCmd
        ((handleWindowEvent (.Focused false)).foldl applyCmd .Visible) = .Hidden
    ∧ handleWindowEvent (.Focused true) = [] := by
  refine ⟨rfl, fun v => by cases v <;> rfl, rfl, rfl⟩

/-- C3: on the show path, as long as the rounded targets fit in `i32`, the
issued position is exactly the spec formula
`(position.x + size.width/2 - window_width/2, position.y + size.height + gap)`
evaluated on the scale-converted physical rect with `window_width = 400` and
`gap = 8`; in particular, for rect position `(100, 50)`, size `(20, 20)` and
scale factor `2`, the physical rect is `(200, 100), (40, 40)` and the issued
position is exactly `(20, 148)`. -/
theorem C3_position_formula :
    (∀ (rect : TrayRect) (scale : ℚ),
        -(2 ^ 31) ≤ roundHalfAway (specTargetOnPhys (toPhysical rect scale)).1 →
        roundHalfAway (specTargetOnPhys (toPhysical rect scale)).1 ≤ 2 ^ 31 - 1 →
        -(2 ^ 31) ≤ roundHalfAway (specTargetOnPhys (toPhysical rect scale)).2 →
        roundHalfAway (specTargetOnPhys (toPhysical rect scale)).2 ≤ 2 ^ 31 - 1 →
        computeTarget rect scale =
          (roundHalfAway (specTargetOnPhys (toPhysical rect scale)).1,
           roundHalfAway (specTargetOnPhys (toPhysical rect scale)).2))
    ∧ toPhysical ⟨100, 50, 20, 20⟩ 2 = ⟨200, 100, 40, 40⟩
    ∧ computeTarget ⟨100, 50, 20, 20⟩ 2 = (20, 148) := by
  refine ⟨fun rect scale h1 h2 h3 h4 => ?_, toPhysical_case_a, computeTarget_case_a⟩
  rw [computeTarget, specTargetOnPhys_fst, specTargetOnPhys_snd] at *
  rw [i32cast_of_range h1 h2, i32cast_of_range h3 h4]

/-- Witness for C3 at rect `(100, 50), (20, 20)` and scale factor `2`. -/
theorem C3_position_formula_witness :
    computeTarget ⟨100, 50, 20, 20⟩ 2 =
      (roundHalfAway (specTargetOnPhys (toPhysical ⟨100, 50, 20, 20⟩ 2)).1,
       roundHalfAway (specTargetOnPhys (toPhysical ⟨100, 50, 20, 20⟩ 2)).2) :=
  C3_position_formula.1 ⟨100, 50, 20, 20⟩ 2
    (by rw [specTargetOnPhys_fst, rha_targetX_case_a]; omega)
    (by rw [specTargetOnPhys_fst, rha_targetX_case_a]; omega)
    (by rw [specTargetOnPhys_snd, rha_targetY_case_a]; omega)
    (by rw [specTargetOnPhys_snd, rha_targetY_case_a]; omega)

/-- C4: both target coordinates pass through the fixed nearest-integer
rounding `roundHalfAway` before the position command is issued; that rounding
is to a nearest integer and ties go away from zero; and for scale factor
`3/2` and rect `(10, 10), (30, 30)` the physical rect is `(15, 15), (45, 45)`,
the unrounded target is `(-325/2, 68)`, and the issued position is
`(-163, 68)` (which is among the claim's `(-163 or -162, 68)`). -/
theorem C4_rounding :
    (∀ (rect : TrayRect) (scale : ℚ),
        computeTarget rect scale =
          (i32cast (roundHalfAway (targetXQ rect scale)),
           i32cast (roundHalfAway (targetYQ rect scale))))
    ∧ (∀ q : ℚ, |(roundHalfAway q : ℚ) - q| ≤ 1/2)
    ∧ (∀ q : ℚ, |(roundHalfAway q : ℚ) - q| = 1/2 → |q| ≤ |(roundHalfAway q : ℚ)|)
    ∧ toPhysical ⟨10, 10, 30, 30⟩ (3/2) = ⟨15, 15, 45, 45⟩
    ∧ targetXQ ⟨10, 10, 30, 30⟩ (3/2) = -325/2
    ∧ targetYQ ⟨10, 10, 30, 30⟩ (3/2) = 68
    ∧ computeTarget ⟨10, 10, 30, 30⟩ (3/2) = (-163, 68) :=
  ⟨fun _ _ => rfl, abs_roundHalfAway_sub_le, roundHalfAway_tie_away,
   toPhysical_case_b, targetXQ_case_b, targetYQ_case_b, computeTarget_case_b⟩

/-- Witness for C4 at the tie `q = 5/2`, whose rounding away from zero is `3`. -/
theorem C4_rounding_witness : |(5/2 : ℚ)| ≤ |(roundHalfAway (5/2 : ℚ) : ℚ)| :=
  C4_rounding.2.2.1 (5/2) (by rw [rha_five_halves]; norm_num)

/-- C5: a tray click whose button is not `Left` or whose state is not `Up`
issues no window command and leaves visibility unchanged. -/
theorem C5_filter (env : WindowEnv) (b : MouseButton) (s : MouseButtonState)
    (rect : TrayRect) (h : b ≠ .Left ∨ s ≠ .Up) :
    handleTrayEvent env (.Click b s rect) = []
    ∧ ∀ v : Visibility,
        (handleTrayEvent env (.Click b s rect)).foldl applyCmd v = v := by
  have he : handleTrayEvent env (.Click b s rect) = [] := by
    cases b <;> cases s <;> simp_all [handleTrayEvent]
  exact ⟨he, fun v => by rw [he]; rfl⟩

/-- Witness for C5 at a right-button release. -/
theorem C5_filter_witness :
    handleTrayEvent ⟨true, some true, some 1⟩
      (.Click .Right .Up ⟨0, 0, 0, 0⟩) = [] :=
  (C5_filter ⟨true, some true, some 1⟩ .Right .Up ⟨0, 0, 0, 0⟩
    (Or.inl (by decide))).1

/-- C6: a `Left`/`Up` tray click processed while the window reports hidden
issues exactly `set-position`, then `show`, then `set-focus`, in that order,
and no `hide` command. -/
theorem C6_show_sequence (env : WindowEnv) (rect : TrayRect)
    (hres : env.resolvable = true)
    (hvis : env.isVisibleResult.getD false = false) :
    handleTrayEvent env (.Click .Left .Up rect) =
      [Cmd.setPosition (computeTarget rect (env.scaleResult.getD 1)).1
         (computeTarget rect (env.scaleResult.getD 1)).2,
       Cmd.showWin, Cmd.setFocus]
    ∧ Cmd.hide ∉ handleTrayEvent env (.Click .Left .Up rect) := by
  constructor
  · simp [handleTrayEvent, hres, hvis]
  · simp [handleTrayEvent, hres, hvis]

/-- Witness for C6 with the window resolved, reported hidden, at scale `2`. -/
theorem C6_show_sequence_witness :
    handleTrayEvent ⟨true, some false, some 2⟩
        (.Click .Left .Up ⟨100, 50, 20, 20⟩) =
      [Cmd.setPosition (computeTarget ⟨100, 50, 20, 20⟩ 2).1
         (computeTarget ⟨100, 50, 20, 20⟩ 2).2,
       Cmd.showWin, Cmd.setFocus]
    ∧ Cmd.hide ∉ handleTrayEvent ⟨true, some false, some 2⟩
        (.Click .Left .Up ⟨100, 50, 20, 20⟩) :=
  C6_show_sequence ⟨true, some false, some 2⟩ ⟨100, 50, 20, 20⟩ rfl rfl

/-- C7: during initialization exactly one `hide` is issued on the managed
window, the whole trace puts the setup commands before any commands of
dispatched events, and visibility after the setup commands is `Hidden` from
any prior state. -/
theorem C7_startup_hide :
    (∀ events : List SysEvent,
        systemTrace true events = some (setupWindowCmds ++ events.flatMap eventCmds))
    ∧ setupWindowCmds.count Cmd.hide = 1
    ∧ ∀ v : Visibility, setupWindowCmds.foldl applyCmd v = .Hidden := by
  refine ⟨fun events => rfl, by decide, fun v => by cases v <;> rfl⟩

/-- C8: when the managed window cannot be resolved, the tray handler is a
no-op: it issues no command and leaves visibility unchanged; the handler has
no error outcome at all. -/
theorem C8_unresolvable_noop (env : WindowEnv) (ev : TrayIconEvent)
    (h : env.resolvable = false) :
    handleTrayEvent env ev = []
    ∧ ∀ v : Visibility, (handleTrayEvent env ev).foldl applyCmd v = v := by
  have he : handleTrayEvent env ev = [] := by
    cases ev with
    | Click b s rect => cases b <;> cases s <;> simp [handleTrayEvent, h]
    | DoubleClick b rect => rfl
    | Enter rect => rfl
    | Move rect => rfl
    | Leave rect => rfl
  exact ⟨he, fun v => by rw [he]; rfl⟩

/-- Witness for C8 at an unresolvable window and a qualifying click. -/
theorem C8_unresolvable_noop_witness :
    handleTrayEvent ⟨false, some true, some 1⟩
      (.Click .Left .Up ⟨0, 0, 0, 0⟩) = [] :=
  (C8_unresolvable_noop ⟨false, some true, some 1⟩
    (.Click .Left .Up ⟨0, 0, 0, 0⟩) rfl).1

/-- C9: startup wiring aborts exactly when the window handle cannot be found:
with the window unresolvable the run produces no trace, and with it resolvable
initialization always succeeds. -/
theorem C9_startup_failure :
    (∀ events : List SysEvent, systemTrace false events = none)
    ∧ (∀ events : List SysEvent, (systemTrace true events).isSome = true) := by
  constructor <;> intro events <;> simp [systemTrace]

/-- C10: on the show path, a failed scale-factor query falls back to scale
factor `1`, and conversion at scale `1` carries integral logical coordinates
over unchanged (up to the `i32`/`u32` range casts). -/
theorem C10_default_scale (env : WindowEnv) (rect : TrayRect)
    (hres : env.resolvable = true)
    (hvis : env.isVisibleResult.getD false = false)
    (hscale : env.scaleResult = none) :
    handleTrayEvent env (.Click .Left .Up rect) =
      [Cmd.setPosition (computeTarget rect 1).1 (computeTarget rect 1).2,
       Cmd.showWin, Cmd.setFocus]
    ∧ ∀ px py sw sh : ℤ,
        toPhysical ⟨(px : ℚ), (py : ℚ), (sw : ℚ), (sh : ℚ)⟩ 1 =
          ⟨i32cast px, i32cast py, u32cast sw, u32cast sh⟩ := by
  constructor
  · simp [handleTrayEvent, hres, hvis, hscale]
  · intro px py sw sh
    simp [toPhysical, mul_one, roundHalfAway_intCast]

/-- Witness for C10 with the scale query failing on a hidden window. -/
theorem C10_default_scale_witness :
    handleTrayEvent ⟨true, some false, none⟩
        (.Click .Left .Up ⟨100, 50, 20, 20⟩) =
      [Cmd.setPosition (computeTarget ⟨100, 50, 20, 20⟩ 1).1
         (computeTarget ⟨100, 50, 20, 20⟩ 1).2,
       Cmd.showWin, Cmd.setFocus] :=
  (C10_default_scale ⟨true, some false, none⟩ ⟨100, 50, 20, 20⟩ rfl rfl rfl).1

end Unscramm
